import Mathlib

/-
Verification development for the nexus-compiler code-generation backend.

The runtime support library (print_int, print_string, print_boolean,
print_new_line, compare_eq, compare_neq) is embedded instruction by
instruction from src/riscv-resources/my_program.s, together with a small
operational semantics for the RV32/RV64 subset it uses.  The code
generator itself (label allocation, string pool, slot allocation,
statement lowering) is modelled from the specification, with the emitted
artifact my_program.s as concrete evidence for layout and lowering shape.
-/

namespace NexusGen

/-- Registers used by the emitted program and its runtime library. -/
inductive Reg
  | zero | ra | sp
  | a0 | a1 | a2 | a7
  | t0 | t1 | t2 | t3 | t4 | t5 | t6
deriving DecidableEq, Repr

/-- Code labels: the text-section entry, the control-flow labels the
generator allocates (suffix = shared counter value), and the fixed labels
of the runtime library from my_program.s. -/
inductive CLabel
  | startL
  | while_start (n : Nat)
  | while_end (n : Nat)
  | if_else (n : Nat)
  | if_end (n : Nat)
  | print_int
  | print_int_loop
  | print_string
  | print_boolean
  | print_false
  | print_bool_call
  | print_new_line
  | compare_eq
  | compare_eq_true
  | compare_eq_ret
  | compare_neq
  | compare_neq_true
  | compare_neq_ret
deriving DecidableEq, Repr

/-- Data-section labels: one static slot per variable (name plus resolved
unique id, rendered e.g. o_0), the pooled newline byte, the reusable
one-byte print buffer, and the pooled strings string_N. -/
inductive DLabel
  | slot (name : String) (id : Nat)
  | new_line
  | print_int_char
  | string (n : Nat)
deriving DecidableEq, Repr

/-- The instructions appearing in my_program.s (program body and runtime
library).  label is the definition of a code label at that position. -/
inductive Instr
  | label (l : CLabel)
  | nop
  | la (rd : Reg) (l : DLabel)
  | li (rd : Reg) (imm : Nat)
  | mv (rd rs : Reg)
  | add (rd rs1 rs2 : Reg)
  | addi (rd rs : Reg) (imm : Int)
  | divu (rd rs1 rs2 : Reg)
  | remu (rd rs1 rs2 : Reg)
  | sb (rs : Reg) (off : Nat) (base : Reg)
  | lbu (rd : Reg) (off : Nat) (base : Reg)
  | lhu (rd : Reg) (off : Nat) (base : Reg)
  | sw (rs : Reg) (off : Nat) (base : Reg)
  | lw (rd : Reg) (off : Nat) (base : Reg)
  | beq (rs1 rs2 : Reg) (target : CLabel)
  | bne (rs1 rs2 : Reg) (target : CLabel)
  | blt (rs1 rs2 : Reg) (target : CLabel)
  | j (target : CLabel)
  | call (target : CLabel)
  | ret
  | ecall
deriving DecidableEq, Repr

/-- Machine values: plain integers, data-section addresses (label plus
byte offset), code addresses (for ra), and stack addresses (for sp). -/
inductive Val
  | num (n : Nat)
  | addr (l : DLabel) (off : Nat)
  | codeAddr (k : Nat)
  | stackAddr (off : Nat)
deriving DecidableEq, Repr

/-- The register file. -/
structure RegFile where
  ra : Val
  sp : Val
  a0 : Val
  a1 : Val
  a2 : Val
  a7 : Val
  t0 : Val
  t1 : Val
  t2 : Val
  t3 : Val
  t4 : Val
  t5 : Val
  t6 : Val
deriving Repr

def getReg (r : RegFile) : Reg → Val
  | .zero => .num 0
  | .ra => r.ra
  | .sp => r.sp
  | .a0 => r.a0
  | .a1 => r.a1
  | .a2 => r.a2
  | .a7 => r.a7
  | .t0 => r.t0
  | .t1 => r.t1
  | .t2 => r.t2
  | .t3 => r.t3
  | .t4 => r.t4
  | .t5 => r.t5
  | .t6 => r.t6

def setReg (r : RegFile) : Reg → Val → RegFile
  | .zero, _ => r
  | .ra, v => { r with ra := v }
  | .sp, v => { r with sp := v }
  | .a0, v => { r with a0 := v }
  | .a1, v => { r with a1 := v }
  | .a2, v => { r with a2 := v }
  | .a7, v => { r with a7 := v }
  | .t0, v => { r with t0 := v }
  | .t1, v => { r with t1 := v }
  | .t2, v => { r with t2 := v }
  | .t3, v => { r with t3 := v }
  | .t4, v => { r with t4 := v }
  | .t5, v => { r with t5 := v }
  | .t6, v => { r with t6 := v }

def vadd : Val → Val → Val
  | .num a, .num b => .num (a + b)
  | _, _ => .num 0

def vaddi : Val → Int → Val
  | .num a, imm => .num ((a + imm).toNat)
  | .addr l o, imm => .addr l ((o + imm).toNat)
  | .codeAddr k, imm => .codeAddr ((k + imm).toNat)
  | .stackAddr o, imm => .stackAddr ((o + imm).toNat)

def vdivu : Val → Val → Val
  | .num a, .num b => .num (a / b)
  | _, _ => .num 0

def vremu : Val → Val → Val
  | .num a, .num b => .num (a % b)
  | _, _ => .num 0

def vlt : Val → Val → Bool
  | .num a, .num b => decide (a < b)
  | _, _ => false

def byteOf : Val → Nat
  | .num n => n % 256
  | _ => 0

def valNat : Val → Nat
  | .num n => n
  | _ => 0

/-- The machine: registers, program counter, a word-granular call stack,
the static data segment (each data label names a byte list), and the list
of chunks written by write system calls (one entry per ecall). -/
structure Mach where
  regs : RegFile
  pc : Nat
  stack : Nat → Val
  data : DLabel → List Nat
  out : List (List Nat)
  halted : Bool

def updateData (d : DLabel → List Nat) (l : DLabel) (v : List Nat) : DLabel → List Nat :=
  fun x => if x = l then v else d x

def updateStack (s : Nat → Val) (k : Nat) (v : Val) : Nat → Val :=
  fun x => if x = k then v else s x

/-- Position of the definition of a code label in a program. -/
def resolve (prog : List Instr) (l : CLabel) : Nat :=
  prog.findIdx (fun i => decide (i = Instr.label l))

def fetchInstr : List Instr → Nat → Option Instr
  | [], _ => none
  | i :: _, 0 => some i
  | _ :: is, n + 1 => fetchInstr is n

/-- One instruction of the operational semantics for the RISC-V subset in
my_program.s.  ecall with a7 = 64 is the Linux write system call: it
emits the addressed bytes as one output chunk and returns the written
count in a0; a7 = 93 is exit. -/
def step (prog : List Instr) (i : Instr) (m : Mach) : Mach :=
  match i with
  | .label _ => { m with pc := m.pc + 1 }
  | .nop => { m with pc := m.pc + 1 }
  | .la rd l => { m with regs := setReg m.regs rd (.addr l 0), pc := m.pc + 1 }
  | .li rd n => { m with regs := setReg m.regs rd (.num n), pc := m.pc + 1 }
  | .mv rd rs => { m with regs := setReg m.regs rd (getReg m.regs rs), pc := m.pc + 1 }
  | .add rd r1 r2 =>
      { m with regs := setReg m.regs rd (vadd (getReg m.regs r1) (getReg m.regs r2)),
               pc := m.pc + 1 }
  | .addi rd rs imm =>
      { m with regs := setReg m.regs rd (vaddi (getReg m.regs rs) imm), pc := m.pc + 1 }
  | .divu rd r1 r2 =>
      { m with regs := setReg m.regs rd (vdivu (getReg m.regs r1) (getReg m.regs r2)),
               pc := m.pc + 1 }
  | .remu rd r1 r2 =>
      { m with regs := setReg m.regs rd (vremu (getReg m.regs r1) (getReg m.regs r2)),
               pc := m.pc + 1 }
  | .sb rs off rb =>
      match getReg m.regs rb with
      | .addr l o =>
          { m with data := updateData m.data l ((m.data l).set (o + off) (byteOf (getReg m.regs rs))),
                   pc := m.pc + 1 }
      | _ => { m with halted := true }
  | .lbu rd off rb =>
      match getReg m.regs rb with
      | .addr l o =>
          { m with regs := setReg m.regs rd (.num ((m.data l).getD (o + off) 0)), pc := m.pc + 1 }
      | _ => { m with halted := true }
  | .lhu rd off rb =>
      match getReg m.regs rb with
      | .addr l o =>
          { m with regs := setReg m.regs rd
                     (.num ((m.data l).getD (o + off) 0 + 256 * (m.data l).getD (o + off + 1) 0)),
                   pc := m.pc + 1 }
      | _ => { m with halted := true }
  | .sw rs off rb =>
      match getReg m.regs rb with
      | .stackAddr o =>
          { m with stack := updateStack m.stack (o + off) (getReg m.regs rs), pc := m.pc + 1 }
      | _ => { m with halted := true }
  | .lw rd off rb =>
      match getReg m.regs rb with
      | .stackAddr o =>
          { m with regs := setReg m.regs rd (m.stack (o + off)), pc := m.pc + 1 }
      | _ => { m with halted := true }
  | .beq r1 r2 t =>
      if getReg m.regs r1 = getReg m.regs r2 then { m with pc := resolve prog t }
      else { m with pc := m.pc + 1 }
  | .bne r1 r2 t =>
      if getReg m.regs r1 = getReg m.regs r2 then { m with pc := m.pc + 1 }
      else { m with pc := resolve prog t }
  | .blt r1 r2 t =>
      if vlt (getReg m.regs r1) (getReg m.regs r2) then { m with pc := resolve prog t }
      else { m with pc := m.pc + 1 }
  | .j t => { m with pc := resolve prog t }
  | .call t => { m with regs := setReg m.regs .ra (.codeAddr (m.pc + 1)), pc := resolve prog t }
  | .ret =>
      match getReg m.regs .ra with
      | .codeAddr k => { m with pc := k }
      | _ => { m with halted := true }
  | .ecall =>
      match getReg m.regs .a7 with
      | .num 64 =>
          match getReg m.regs .a1 with
          | .addr l o =>
              let w := List.take (valNat (getReg m.regs .a2)) (List.drop o (m.data l))
              { m with out := m.out ++ [w], regs := setReg m.regs .a0 (.num w.length),
                       pc := m.pc + 1 }
          | _ => { m with halted := true }
      | .num 93 => { m with halted := true }
      | _ => { m with halted := true }

/-- Fuel-bounded execution; stops when halted or when the pc leaves the
program (in particular when a routine returns to the caller sentinel). -/
def run (prog : List Instr) : Nat → Mach → Mach
  | 0, m => m
  | fuel + 1, m =>
      if m.halted then m
      else
        match fetchInstr prog m.pc with
        | none => m
        | some i => run prog fuel (step prog i m)

theorem run_eq (prog : List Instr) (fuel : Nat) (m : Mach) :
    run prog fuel m =
      if fuel = 0 then m
      else if m.halted then m
      else
        match fetchInstr prog m.pc with
        | none => m
        | some i => run prog (fuel - 1) (step prog i m) := by
  cases fuel with
  | zero => simp [run]
  | succ n => simp [run]

theorem fetchInstr_eq (i : Instr) (is : List Instr) (n : Nat) :
    fetchInstr (i :: is) n = if n = 0 then some i else fetchInstr is (n - 1) := by
  cases n with
  | zero => simp [fetchInstr]
  | succ k => simp [fetchInstr]

/-- The runtime support library, transcribed instruction by instruction
from src/riscv-resources/my_program.s (the block from print_int: through
the final compare_neq_ret: ret). -/
def runtimeLib : List Instr := [
  .label .print_int,                     -- print_int:
  .mv .t0 .a0,                           -- mv t0, a0
  .li .a7 64,                            -- li  a7, 64
  .li .a0 1,                             -- li  a0, 1
  .la .a1 .print_int_char,               -- la  a1, print_int_char
  .li .a2 1,                             -- li  a2, 1
  .li .t1 0,                             -- li  t1, 0
  .li .t2 100,                           -- li  t2, 100
  .li .t3 3,                             -- li  t3, 3
  .li .t4 10,                            -- li  t4, 10
  .label .print_int_loop,                -- print_int_loop:
  .divu .t5 .t0 .t2,                     -- divu  t5, t0, t2
  .addi .t5 .t5 48,                      -- addi  t5, t5, 0x30
  .sb .t5 0 .a1,                         -- sb  t5, 0(a1)
  .ecall,                                -- ecall
  .remu .t0 .t0 .t2,                     -- remu  t0, t0, t2
  .divu .t2 .t2 .t4,                     -- divu  t2, t2, t4
  .addi .t1 .t1 1,                       -- addi  t1, t1, 1
  .blt .t1 .t3 .print_int_loop,          -- blt  t1, t3, print_int_loop
  .ret,                                  -- ret
  .label .print_string,                  -- print_string:
  .mv .t0 .a0,                           -- mv  t0, a0
  .li .a7 64,                            -- li  a7, 64
  .li .a0 1,                             -- li  a0, 1
  .lhu .a2 0 .t0,                        -- lhu  a2, 0(t0)
  .addi .a1 .t0 2,                       -- addi  a1, t0, 2
  .ecall,                                -- ecall
  .ret,                                  -- ret
  .label .print_boolean,                 -- print_boolean:
  .beq .a0 .zero .print_false,           -- beq  a0, zero, print_false
  .la .a0 (.string 1),                   -- la  a0, string_1
  .j .print_bool_call,                   -- j  print_bool_call
  .label .print_false,                   -- print_false:
  .la .a0 (.string 0),                   -- la  a0, string_0
  .label .print_bool_call,               -- print_bool_call:
  .addi .sp .sp (-4),                    -- addi  sp, sp, -4
  .sw .ra 0 .sp,                         -- sw  ra, 0(sp)
  .call .print_string,                   -- call print_string
  .lw .ra 0 .sp,                         -- lw  ra, 0(sp)
  .addi .sp .sp 4,                       -- addi  sp, sp, 4
  .ret,                                  -- ret
  .label .print_new_line,                -- print_new_line:
  .li .a7 64,                            -- li  a7, 64
  .li .a0 1,                             -- li  a0, 1
  .la .a1 .new_line,                     -- la  a1, new_line
  .li .a2 1,                             -- li  a2, 1
  .ecall,                                -- ecall
  .ret,                                  -- ret
  .label .compare_eq,                    -- compare_eq:
  .beq .a0 .a1 .compare_eq_true,         -- beq  a0, a1, compare_eq_true
  .li .a0 0,                             -- li  a0, 0
  .j .compare_eq_ret,                    -- j  compare_eq_ret
  .label .compare_eq_true,               -- compare_eq_true:
  .li .a0 1,                             -- li  a0, 1
  .label .compare_eq_ret,                -- compare_eq_ret:
  .ret,                                  -- ret
  .label .compare_neq,                   -- compare_neq:
  .bne .a0 .a1 .compare_neq_true,        -- bne  a0, a1, compare_neq_true
  .li .a0 0,                             -- li  a0, 0
  .j .compare_neq_ret,                   -- j  compare_neq_ret
  .label .compare_neq_true,              -- compare_neq_true:
  .li .a0 1,                             -- li  a0, 1
  .label .compare_neq_ret,               -- compare_neq_ret:
  .ret                                   -- ret
]

/-- Sentinel code address just past the runtime library: a routine that
returns to its caller ends with this pc. -/
def retPC : Nat := runtimeLib.length

/-- Start a runtime routine: the caller return address is the sentinel,
output is empty. -/
def callRoutine (entry : CLabel) (R : RegFile) (d : DLabel → List Nat)
    (stk : Nat → Val) : Mach :=
  { regs := { R with ra := .codeAddr retPC }, pc := resolve runtimeLib entry,
    stack := stk, data := d, out := [], halted := false }

/-- Run a routine of the runtime library to completion (100 steps of fuel
is enough for every routine; a returned routine idles at the sentinel). -/
def routineRun (entry : CLabel) (R : RegFile) (d : DLabel → List Nat)
    (stk : Nat → Val) : Mach :=
  run runtimeLib 100 (callRoutine entry R d stk)

/-
Precomputed instruction fetch and label resolution facts for the runtime
library, so that symbolic executions never unfold the program list.
-/

@[simp] theorem fetchRT_0 : fetchInstr runtimeLib 0 = some (.label .print_int) := rfl
@[simp] theorem fetchRT_1 : fetchInstr runtimeLib 1 = some (.mv .t0 .a0) := rfl
@[simp] theorem fetchRT_2 : fetchInstr runtimeLib 2 = some (.li .a7 64) := rfl
@[simp] theorem fetchRT_3 : fetchInstr runtimeLib 3 = some (.li .a0 1) := rfl
@[simp] theorem fetchRT_4 : fetchInstr runtimeLib 4 = some (.la .a1 .print_int_char) := rfl
@[simp] theorem fetchRT_5 : fetchInstr runtimeLib 5 = some (.li .a2 1) := rfl
@[simp] theorem fetchRT_6 : fetchInstr runtimeLib 6 = some (.li .t1 0) := rfl
@[simp] theorem fetchRT_7 : fetchInstr runtimeLib 7 = some (.li .t2 100) := rfl
@[simp] theorem fetchRT_8 : fetchInstr runtimeLib 8 = some (.li .t3 3) := rfl
@[simp] theorem fetchRT_9 : fetchInstr runtimeLib 9 = some (.li .t4 10) := rfl
@[simp] theorem fetchRT_10 : fetchInstr runtimeLib 10 = some (.label .print_int_loop) := rfl
@[simp] theorem fetchRT_11 : fetchInstr runtimeLib 11 = some (.divu .t5 .t0 .t2) := rfl
@[simp] theorem fetchRT_12 : fetchInstr runtimeLib 12 = some (.addi .t5 .t5 48) := rfl
@[simp] theorem fetchRT_13 : fetchInstr runtimeLib 13 = some (.sb .t5 0 .a1) := rfl
@[simp] theorem fetchRT_14 : fetchInstr runtimeLib 14 = some (.ecall) := rfl
@[simp] theorem fetchRT_15 : fetchInstr runtimeLib 15 = some (.remu .t0 .t0 .t2) := rfl
@[simp] theorem fetchRT_16 : fetchInstr runtimeLib 16 = some (.divu .t2 .t2 .t4) := rfl
@[simp] theorem fetchRT_17 : fetchInstr runtimeLib 17 = some (.addi .t1 .t1 1) := rfl
@[simp] theorem fetchRT_18 : fetchInstr runtimeLib 18 = some (.blt .t1 .t3 .print_int_loop) := rfl
@[simp] theorem fetchRT_19 : fetchInstr runtimeLib 19 = some (.ret) := rfl
@[simp] theorem fetchRT_20 : fetchInstr runtimeLib 20 = some (.label .print_string) := rfl
@[simp] theorem fetchRT_21 : fetchInstr runtimeLib 21 = some (.mv .t0 .a0) := rfl
@[simp] theorem fetchRT_22 : fetchInstr runtimeLib 22 = some (.li .a7 64) := rfl
@[simp] theorem fetchRT_23 : fetchInstr runtimeLib 23 = some (.li .a0 1) := rfl
@[simp] theorem fetchRT_24 : fetchInstr runtimeLib 24 = some (.lhu .a2 0 .t0) := rfl
@[simp] theorem fetchRT_25 : fetchInstr runtimeLib 25 = some (.addi .a1 .t0 2) := rfl
@[simp] theorem fetchRT_26 : fetchInstr runtimeLib 26 = some (.ecall) := rfl
@[simp] theorem fetchRT_27 : fetchInstr runtimeLib 27 = some (.ret) := rfl
@[simp] theorem fetchRT_28 : fetchInstr runtimeLib 28 = some (.label .print_boolean) := rfl
@[simp] theorem fetchRT_29 : fetchInstr runtimeLib 29 = some (.beq .a0 .zero .print_false) := rfl
@[simp] theorem fetchRT_30 : fetchInstr runtimeLib 30 = some (.la .a0 (.string 1)) := rfl
@[simp] theorem fetchRT_31 : fetchInstr runtimeLib 31 = some (.j .print_bool_call) := rfl
@[simp] theorem fetchRT_32 : fetchInstr runtimeLib 32 = some (.label .print_false) := rfl
@[simp] theorem fetchRT_33 : fetchInstr runtimeLib 33 = some (.la .a0 (.string 0)) := rfl
@[simp] theorem fetchRT_34 : fetchInstr runtimeLib 34 = some (.label .print_bool_call) := rfl
@[simp] theorem fetchRT_35 : fetchInstr runtimeLib 35 = some (.addi .sp .sp (-4)) := rfl
@[simp] theorem fetchRT_36 : fetchInstr runtimeLib 36 = some (.sw .ra 0 .sp) := rfl
@[simp] theorem fetchRT_37 : fetchInstr runtimeLib 37 = some (.call .print_string) := rfl
@[simp] theorem fetchRT_38 : fetchInstr runtimeLib 38 = some (.lw .ra 0 .sp) := rfl
@[simp] theorem fetchRT_39 : fetchInstr runtimeLib 39 = some (.addi .sp .sp 4) := rfl
@[simp] theorem fetchRT_40 : fetchInstr runtimeLib 40 = some (.ret) := rfl
@[simp] theorem fetchRT_41 : fetchInstr runtimeLib 41 = some (.label .print_new_line) := rfl
@[simp] theorem fetchRT_42 : fetchInstr runtimeLib 42 = some (.li .a7 64) := rfl
@[simp] theorem fetchRT_43 : fetchInstr runtimeLib 43 = some (.li .a0 1) := rfl
@[simp] theorem fetchRT_44 : fetchInstr runtimeLib 44 = some (.la .a1 .new_line) := rfl
@[simp] theorem fetchRT_45 : fetchInstr runtimeLib 45 = some (.li .a2 1) := rfl
@[simp] theorem fetchRT_46 : fetchInstr runtimeLib 46 = some (.ecall) := rfl
@[simp] theorem fetchRT_47 : fetchInstr runtimeLib 47 = some (.ret) := rfl
@[simp] theorem fetchRT_48 : fetchInstr runtimeLib 48 = some (.label .compare_eq) := rfl
@[simp] theorem fetchRT_49 : fetchInstr runtimeLib 49 = some (.beq .a0 .a1 .compare_eq_true) := rfl
@[simp] theorem fetchRT_50 : fetchInstr runtimeLib 50 = some (.li .a0 0) := rfl
@[simp] theorem fetchRT_51 : fetchInstr runtimeLib 51 = some (.j .compare_eq_ret) := rfl
@[simp] theorem fetchRT_52 : fetchInstr runtimeLib 52 = some (.label .compare_eq_true) := rfl
@[simp] theorem fetchRT_53 : fetchInstr runtimeLib 53 = some (.li .a0 1) := rfl
@[simp] theorem fetchRT_54 : fetchInstr runtimeLib 54 = some (.label .compare_eq_ret) := rfl
@[simp] theorem fetchRT_55 : fetchInstr runtimeLib 55 = some (.ret) := rfl
@[simp] theorem fetchRT_56 : fetchInstr runtimeLib 56 = some (.label .compare_neq) := rfl
@[simp] theorem fetchRT_57 : fetchInstr runtimeLib 57 = some (.bne .a0 .a1 .compare_neq_true) := rfl
@[simp] theorem fetchRT_58 : fetchInstr runtimeLib 58 = some (.li .a0 0) := rfl
@[simp] theorem fetchRT_59 : fetchInstr runtimeLib 59 = some (.j .compare_neq_ret) := rfl
@[simp] theorem fetchRT_60 : fetchInstr runtimeLib 60 = some (.label .compare_neq_true) := rfl
@[simp] theorem fetchRT_61 : fetchInstr runtimeLib 61 = some (.li .a0 1) := rfl
@[simp] theorem fetchRT_62 : fetchInstr runtimeLib 62 = some (.label .compare_neq_ret) := rfl
@[simp] theorem fetchRT_63 : fetchInstr runtimeLib 63 = some (.ret) := rfl
@[simp] theorem fetchRT_64 : fetchInstr runtimeLib 64 = none := rfl
@[simp] theorem fetchRT_retPC : fetchInstr runtimeLib retPC = none := rfl
@[simp] theorem retPC_val : retPC = 64 := rfl
@[simp] theorem resolveRT_print_int : resolve runtimeLib .print_int = 0 := rfl
@[simp] theorem resolveRT_print_int_loop : resolve runtimeLib .print_int_loop = 10 := rfl
@[simp] theorem resolveRT_print_string : resolve runtimeLib .print_string = 20 := rfl
@[simp] theorem resolveRT_print_boolean : resolve runtimeLib .print_boolean = 28 := rfl
@[simp] theorem resolveRT_print_false : resolve runtimeLib .print_false = 32 := rfl
@[simp] theorem resolveRT_print_bool_call : resolve runtimeLib .print_bool_call = 34 := rfl
@[simp] theorem resolveRT_print_new_line : resolve runtimeLib .print_new_line = 41 := rfl
@[simp] theorem resolveRT_compare_eq : resolve runtimeLib .compare_eq = 48 := rfl
@[simp] theorem resolveRT_compare_eq_true : resolve runtimeLib .compare_eq_true = 52 := rfl
@[simp] theorem resolveRT_compare_eq_ret : resolve runtimeLib .compare_eq_ret = 54 := rfl
@[simp] theorem resolveRT_compare_neq : resolve runtimeLib .compare_neq = 56 := rfl
@[simp] theorem resolveRT_compare_neq_true : resolve runtimeLib .compare_neq_true = 60 := rfl
@[simp] theorem resolveRT_compare_neq_ret : resolve runtimeLib .compare_neq_ret = 62 := rfl

@[simp] theorem int_toNat_add_two (a : Nat) : ((a : Int) + 2).toNat = a + 2 := by omega

@[simp] theorem int_toNat_add_48 (a : Nat) : ((a : Int) + 48).toNat = a + 48 := by omega

@[simp] theorem int_toNat_add_one (a : Nat) : ((a : Int) + 1).toNat = a + 1 := by omega

@[simp] theorem int_toNat_add_four (a : Nat) : ((a : Int) + 4).toNat = a + 4 := by omega

theorem int_toNat_sub_four (a : Nat) (h : 4 ≤ a) : ((a : Int) + -4).toNat = a - 4 := by omega

/-- The 16-bit length read performed by print_string on a pool entry:
low byte plus 256 times the high byte. -/
def entryLen (bs : List Nat) : Nat := bs.getD 0 0 + 256 * bs.getD 1 0

/-- Rendering of one string-pool entry: a little-endian 16-bit length
field followed by the raw bytes, no null terminator (modelled from the
spec section 4.2; matches the .half then .ascii directives emitted in
my_program.s). -/
def renderString (bs : List Nat) : List Nat :=
  bs.length % 256 :: bs.length / 256 % 256 :: bs

/-- Bytes of the pooled string "false". -/
def falseBytes : List Nat := [102, 97, 108, 115, 101]

/-- Bytes of the pooled string "true". -/
def trueBytes : List Nat := [116, 114, 117, 101]

/-- Bytes of the pooled string " inner" from the worked example. -/
def innerBytes : List Nat := [32, 105, 110, 110, 101, 114]

/-- Bytes of the pooled string " outer" from the worked example. -/
def outerBytes : List Nat := [32, 111, 117, 116, 101, 114]

/-- A register file with all registers zero (used for concrete runs). -/
def R0 : RegFile :=
  ⟨.num 0, .num 0, .num 0, .num 0, .num 0, .num 0, .num 0,
   .num 0, .num 0, .num 0, .num 0, .num 0, .num 0⟩

/-- The static data segment of the worked example my_program.s. -/
def stdData : DLabel → List Nat
  | .slot _ _ => [0]
  | .new_line => [10]
  | .print_int_char => [0]
  | .string 0 => renderString falseBytes
  | .string 1 => renderString trueBytes
  | .string 2 => renderString innerBytes
  | .string 3 => renderString outerBytes
  | .string _ => []

/-- An all-zero call stack (used for concrete runs). -/
def stk0 : Nat → Val := fun _ => .num 0

/-
Symbolic characterizations of the six runtime routines.  Each lemma runs
the routine from an arbitrary machine configuration and describes the
output chunks, the final pc (back at the caller sentinel), the data
segment, and the stack pointer.
-/

theorem print_int_run (R : RegFile) (d : DLabel → List Nat) (stk : Nat → Val) (n b0 : Nat)
    (hb : d .print_int_char = [b0]) :
    (routineRun .print_int { R with a0 := .num n } d stk).out =
      [[(n / 100 + 48) % 256], [(n % 100 / 10 + 48) % 256], [(n % 100 % 10 + 48) % 256]] ∧
    (routineRun .print_int { R with a0 := .num n } d stk).pc = retPC ∧
    (routineRun .print_int { R with a0 := .num n } d stk).data .print_int_char
      = [(n % 100 % 10 + 48) % 256] ∧
    (∀ l, l ≠ .print_int_char →
      (routineRun .print_int { R with a0 := .num n } d stk).data l = d l) ∧
    (routineRun .print_int { R with a0 := .num n } d stk).regs.sp = R.sp := by
  simp [routineRun, callRoutine, run_eq, step, getReg, setReg, valNat, byteOf, vdivu, vremu,
    vaddi, vlt, hb, updateData]
  refine ⟨⟨by omega, by omega, by omega⟩, by omega, fun l hl => by simp [hl]⟩

theorem print_string_run (R : RegFile) (d : DLabel → List Nat) (stk : Nat → Val)
    (l : DLabel) (off : Nat) :
    (routineRun .print_string { R with a0 := .addr l off } d stk).out =
      [List.take ((d l).getD off 0 + 256 * (d l).getD (off + 1) 0) (List.drop (off + 2) (d l))] ∧
    (routineRun .print_string { R with a0 := .addr l off } d stk).pc = retPC ∧
    (routineRun .print_string { R with a0 := .addr l off } d stk).data = d ∧
    (routineRun .print_string { R with a0 := .addr l off } d stk).regs.sp = R.sp := by
  simp [routineRun, callRoutine, run_eq, step, getReg, setReg, valNat, byteOf, vdivu, vremu,
    vaddi, vlt, updateData]

theorem print_boolean_run_pos (R : RegFile) (d : DLabel → List Nat) (stk : Nat → Val)
    (n spv : Nat) (h : n ≠ 0) (h4 : 4 ≤ spv) :
    (routineRun .print_boolean { R with a0 := .num n, sp := .stackAddr spv } d stk).out =
      [List.take (entryLen (d (.string 1))) (List.drop 2 (d (.string 1)))] ∧
    (routineRun .print_boolean { R with a0 := .num n, sp := .stackAddr spv } d stk).pc = retPC ∧
    (routineRun .print_boolean { R with a0 := .num n, sp := .stackAddr spv } d stk).data = d ∧
    (routineRun .print_boolean { R with a0 := .num n, sp := .stackAddr spv } d stk).regs.sp
      = .stackAddr spv ∧
    (routineRun .print_boolean { R with a0 := .num n, sp := .stackAddr spv } d stk).regs.ra
      = .codeAddr retPC ∧
    (routineRun .print_boolean { R with a0 := .num n, sp := .stackAddr spv } d stk).stack (spv - 4)
      = .codeAddr retPC := by
  simp [routineRun, callRoutine, run_eq, step, getReg, setReg, valNat, byteOf, vdivu, vremu,
    vaddi, vlt, updateStack, entryLen, h, int_toNat_sub_four, h4, Nat.sub_add_cancel]

theorem print_boolean_run_zero (R : RegFile) (d : DLabel → List Nat) (stk : Nat → Val)
    (spv : Nat) (h4 : 4 ≤ spv) :
    (routineRun .print_boolean { R with a0 := .num 0, sp := .stackAddr spv } d stk).out =
      [List.take (entryLen (d (.string 0))) (List.drop 2 (d (.string 0)))] ∧
    (routineRun .print_boolean { R with a0 := .num 0, sp := .stackAddr spv } d stk).pc = retPC ∧
    (routineRun .print_boolean { R with a0 := .num 0, sp := .stackAddr spv } d stk).data = d ∧
    (routineRun .print_boolean { R with a0 := .num 0, sp := .stackAddr spv } d stk).regs.sp
      = .stackAddr spv ∧
    (routineRun .print_boolean { R with a0 := .num 0, sp := .stackAddr spv } d stk).regs.ra
      = .codeAddr retPC ∧
    (routineRun .print_boolean { R with a0 := .num 0, sp := .stackAddr spv } d stk).stack (spv - 4)
      = .codeAddr retPC := by
  simp [routineRun, callRoutine, run_eq, step, getReg, setReg, valNat, byteOf, vdivu, vremu,
    vaddi, vlt, updateStack, entryLen, int_toNat_sub_four, h4, Nat.sub_add_cancel]

theorem print_new_line_run (R : RegFile) (d : DLabel → List Nat) (stk : Nat → Val) :
    (routineRun .print_new_line R d stk).out = [List.take 1 (d .new_line)] ∧
    (routineRun .print_new_line R d stk).pc = retPC ∧
    (routineRun .print_new_line R d stk).data = d ∧
    (routineRun .print_new_line R d stk).regs.sp = R.sp := by
  simp [routineRun, callRoutine, run_eq, step, getReg, setReg, valNat]

theorem compare_eq_run (R : RegFile) (d : DLabel → List Nat) (stk : Nat → Val) (v1 v2 : Val) :
    (routineRun .compare_eq { R with a0 := v1, a1 := v2 } d stk).regs.a0
      = .num (if v1 = v2 then 1 else 0) ∧
    (routineRun .compare_eq { R with a0 := v1, a1 := v2 } d stk).pc = retPC ∧
    (routineRun .compare_eq { R with a0 := v1, a1 := v2 } d stk).data = d ∧
    (routineRun .compare_eq { R with a0 := v1, a1 := v2 } d stk).regs.sp = R.sp := by
  by_cases h : v1 = v2 <;>
    simp [routineRun, callRoutine, run_eq, step, getReg, setReg, valNat, h]

theorem compare_neq_run (R : RegFile) (d : DLabel → List Nat) (stk : Nat → Val) (v1 v2 : Val) :
    (routineRun .compare_neq { R with a0 := v1, a1 := v2 } d stk).regs.a0
      = .num (if v1 = v2 then 0 else 1) ∧
    (routineRun .compare_neq { R with a0 := v1, a1 := v2 } d stk).pc = retPC ∧
    (routineRun .compare_neq { R with a0 := v1, a1 := v2 } d stk).data = d ∧
    (routineRun .compare_neq { R with a0 := v1, a1 := v2 } d stk).regs.sp = R.sp := by
  by_cases h : v1 = v2 <;>
    simp [routineRun, callRoutine, run_eq, step, getReg, setReg, valNat, h]

/-
Claim theorems about the runtime support library (C3, C4, C5, C10).
-/

/-- C3: a pool entry rendered for an interned byte sequence carries a
16-bit length field equal to the exact byte length followed by the raw
bytes with no null terminator, and print_string applied to a reference to
that entry issues one write of exactly that many bytes starting right
after the 2-byte length field, so intern-then-print reproduces the
original bytes, including embedded null or non-ASCII bytes. -/
theorem string_pool_roundtrip (bs : List Nat) (k : Nat) (R : RegFile)
    (d : DLabel → List Nat) (stk : Nat → Val)
    (h1 : bs.length < 65536) (h2 : ∀ b ∈ bs, b < 256)
    (hd : d (.string k) = renderString bs) :
    (renderString bs).length = 2 + bs.length ∧
    entryLen (renderString bs) = bs.length ∧
    List.drop 2 (renderString bs) = bs ∧
    (routineRun .print_string { R with a0 := .addr (.string k) 0 } d stk).out = [bs] := by
  obtain ⟨ho, hpc, hdat, hsp⟩ := print_string_run R d stk (.string k) 0
  refine ⟨by simp only [renderString, List.length_cons]; omega, ?_, by simp [renderString], ?_⟩
  · simp [renderString, entryLen]
    omega
  · rw [ho, hd]
    have hlen : (renderString bs).getD 0 0 + 256 * (renderString bs).getD (0 + 1) 0
        = bs.length := by
      simp [renderString, entryLen]
      omega
    rw [hlen]
    simp [renderString]

/-- Concrete instance of C3 at the byte sequence [0, 200, 10], which has
an embedded null byte and a non-ASCII byte. -/
theorem string_pool_roundtrip_witness :
    ([0, 200, 10] : List Nat).length < 65536 ∧
    (∀ b ∈ ([0, 200, 10] : List Nat), b < 256) ∧
    (routineRun .print_string { R0 with a0 := .addr (.string 7) 0 }
        (updateData stdData (.string 7) (renderString [0, 200, 10])) stk0).out
      = [[0, 200, 10]] :=
  ⟨by decide, by decide,
   (string_pool_roundtrip [0, 200, 10] 7 R0
      (updateData stdData (.string 7) (renderString [0, 200, 10])) stk0
      (by decide) (by decide) rfl).2.2.2⟩

/-- C4: for every input in the 8-bit range, print_int emits exactly three
ASCII digit characters, the hundreds then tens then units decimal digit,
with no leading-zero suppression, using one write system call per digit
and a single reusable one-byte buffer (print_int_char). -/
theorem print_int_three_digits (R : RegFile) (d : DLabel → List Nat) (stk : Nat → Val)
    (n b0 : Nat) (hb : d .print_int_char = [b0]) (hn : n < 256) :
    (routineRun .print_int { R with a0 := .num n } d stk).out =
      [[48 + n / 100], [48 + n / 10 % 10], [48 + n % 10]] ∧
    (routineRun .print_int { R with a0 := .num n } d stk).out.length = 3 ∧
    (∀ w ∈ (routineRun .print_int { R with a0 := .num n } d stk).out, w.length = 1) ∧
    (∀ w ∈ (routineRun .print_int { R with a0 := .num n } d stk).out,
      ∀ c ∈ w, 48 ≤ c ∧ c ≤ 57) ∧
    (routineRun .print_int { R with a0 := .num n } d stk).data .print_int_char
      = [48 + n % 10] ∧
    (routineRun .print_int { R with a0 := .num n } d stk).pc = retPC := by
  obtain ⟨ho, hpc, hbuf, hfr, hsp⟩ := print_int_run R d stk n b0 hb
  have e1 : (n / 100 + 48) % 256 = 48 + n / 100 := by omega
  have e2 : (n % 100 / 10 + 48) % 256 = 48 + n / 10 % 10 := by omega
  have e3 : (n % 100 % 10 + 48) % 256 = 48 + n % 10 := by omega
  rw [e1, e2, e3] at ho
  rw [e3] at hbuf
  refine ⟨ho, by rw [ho]; rfl, ?_, ?_, hbuf, hpc⟩
  · intro w hw
    rw [ho] at hw
    simp only [List.mem_cons, List.not_mem_nil, or_false] at hw
    rcases hw with h | h | h <;> subst h <;> rfl
  · intro w hw c hc
    rw [ho] at hw
    simp only [List.mem_cons, List.not_mem_nil, or_false] at hw
    rcases hw with h | h | h <;> subst h <;>
      simp only [List.mem_cons, List.not_mem_nil, or_false] at hc <;> subst hc <;> omega

/-- Concrete instance of C4 at input 7: the output is the three digit
characters 0, 0, 7, demonstrating the absence of leading-zero
suppression. -/
theorem print_int_three_digits_witness :
    stdData .print_int_char = [0] ∧ 7 < 256 ∧
    (routineRun .print_int { R0 with a0 := .num 7 } stdData stk0).out
      = [[48], [48], [55]] :=
  ⟨rfl, by decide,
   by exact (print_int_three_digits R0 stdData stk0 7 0 rfl (by decide)).1⟩

/-- C5: print_boolean prints the pooled string "false" for input zero and
the pooled string "true" for every non-zero input; the caller return
address is pushed on the stack before the nested print_string call and
popped afterwards, so the routine comes back to the caller with ra and sp
restored to their entry values. -/
theorem print_boolean_correct (R : RegFile) (d : DLabel → List Nat) (stk : Nat → Val)
    (n spv : Nat) (h4 : 4 ≤ spv)
    (hf : d (.string 0) = renderString falseBytes)
    (ht : d (.string 1) = renderString trueBytes) :
    (routineRun .print_boolean { R with a0 := .num n, sp := .stackAddr spv } d stk).out =
      [if n = 0 then falseBytes else trueBytes] ∧
    (routineRun .print_boolean { R with a0 := .num n, sp := .stackAddr spv } d stk).stack (spv - 4)
      = .codeAddr retPC ∧
    (routineRun .print_boolean { R with a0 := .num n, sp := .stackAddr spv } d stk).regs.ra
      = .codeAddr retPC ∧
    (routineRun .print_boolean { R with a0 := .num n, sp := .stackAddr spv } d stk).regs.sp
      = .stackAddr spv ∧
    (routineRun .print_boolean { R with a0 := .num n, sp := .stackAddr spv } d stk).pc
      = retPC := by
  by_cases h : n = 0
  · subst h
    obtain ⟨ho, hpc, hdat, hsp, hra, hst⟩ := print_boolean_run_zero R d stk spv h4
    refine ⟨?_, hst, hra, hsp, hpc⟩
    rw [ho, hf]
    simp [renderString, entryLen, falseBytes]
  · obtain ⟨ho, hpc, hdat, hsp, hra, hst⟩ := print_boolean_run_pos R d stk n spv h h4
    refine ⟨?_, hst, hra, hsp, hpc⟩
    rw [ho, ht]
    simp [renderString, entryLen, trueBytes, h]

/-- Concrete instances of C5: input 0 prints "false", input 3 prints
"true", and the stack pointer is back at its entry value. -/
theorem print_boolean_correct_witness :
    (4 ≤ 16 ∧ stdData (.string 0) = renderString falseBytes ∧
      stdData (.string 1) = renderString trueBytes) ∧
    (routineRun .print_boolean { R0 with a0 := .num 0, sp := .stackAddr 16 } stdData stk0).out
      = [falseBytes] ∧
    (routineRun .print_boolean { R0 with a0 := .num 3, sp := .stackAddr 16 } stdData stk0).out
      = [trueBytes] ∧
    (routineRun .print_boolean { R0 with a0 := .num 3, sp := .stackAddr 16 } stdData stk0).regs.sp
      = .stackAddr 16 :=
  ⟨⟨by decide, rfl, rfl⟩,
   by exact (print_boolean_correct R0 stdData stk0 0 16 (by decide) rfl rfl).1,
   by exact (print_boolean_correct R0 stdData stk0 3 16 (by decide) rfl rfl).1,
   (print_boolean_correct R0 stdData stk0 3 16 (by decide) rfl rfl).2.2.2.1⟩

/-- C10: every runtime routine returns to its caller with the stack
pointer equal to its entry value, and the only static-data location any
of them writes is the one-byte print buffer print_int_char (written by
print_int); variable slots, pooled string length fields and contents, and
the newline byte are unchanged by every call. -/
theorem runtime_frame_effects :
    (∀ (R : RegFile) (d : DLabel → List Nat) (stk : Nat → Val) (n b0 : Nat),
      d .print_int_char = [b0] →
      (routineRun .print_int { R with a0 := .num n } d stk).pc = retPC ∧
      (routineRun .print_int { R with a0 := .num n } d stk).regs.sp = R.sp ∧
      ∀ l, l ≠ .print_int_char →
        (routineRun .print_int { R with a0 := .num n } d stk).data l = d l) ∧
    (∀ (R : RegFile) (d : DLabel → List Nat) (stk : Nat → Val) (l : DLabel) (off : Nat),
      (routineRun .print_string { R with a0 := .addr l off } d stk).pc = retPC ∧
      (routineRun .print_string { R with a0 := .addr l off } d stk).regs.sp = R.sp ∧
      (routineRun .print_string { R with a0 := .addr l off } d stk).data = d) ∧
    (∀ (R : RegFile) (d : DLabel → List Nat) (stk : Nat → Val) (n spv : Nat), 4 ≤ spv →
      (routineRun .print_boolean { R with a0 := .num n, sp := .stackAddr spv } d stk).pc
        = retPC ∧
      (routineRun .print_boolean { R with a0 := .num n, sp := .stackAddr spv } d stk).regs.sp
        = .stackAddr spv ∧
      (routineRun .print_boolean { R with a0 := .num n, sp := .stackAddr spv } d stk).data = d) ∧
    (∀ (R : RegFile) (d : DLabel → List Nat) (stk : Nat → Val),
      (routineRun .print_new_line R d stk).pc = retPC ∧
      (routineRun .print_new_line R d stk).regs.sp = R.sp ∧
      (routineRun .print_new_line R d stk).data = d) ∧
    (∀ (R : RegFile) (d : DLabel → List Nat) (stk : Nat → Val) (v1 v2 : Val),
      (routineRun .compare_eq { R with a0 := v1, a1 := v2 } d stk).pc = retPC ∧
      (routineRun .compare_eq { R with a0 := v1, a1 := v2 } d stk).regs.sp = R.sp ∧
      (routineRun .compare_eq { R with a0 := v1, a1 := v2 } d stk).data = d) ∧
    (∀ (R : RegFile) (d : DLabel → List Nat) (stk : Nat → Val) (v1 v2 : Val),
      (routineRun .compare_neq { R with a0 := v1, a1 := v2 } d stk).pc = retPC ∧
      (routineRun .compare_neq { R with a0 := v1, a1 := v2 } d stk).regs.sp = R.sp ∧
      (routineRun .compare_neq { R with a0 := v1, a1 := v2 } d stk).data = d) := by
  refine ⟨?_, ?_, ?_, ?_, ?_, ?_⟩
  · intro R d stk n b0 hb
    obtain ⟨_, hpc, _, hfr, hsp⟩ := print_int_run R d stk n b0 hb
    exact ⟨hpc, hsp, hfr⟩
  · intro R d stk l off
    obtain ⟨_, hpc, hdat, hsp⟩ := print_string_run R d stk l off
    exact ⟨hpc, hsp, hdat⟩
  · intro R d stk n spv h4
    by_cases h : n = 0
    · subst h
      obtain ⟨_, hpc, hdat, hsp, _, _⟩ := print_boolean_run_zero R d stk spv h4
      exact ⟨hpc, hsp, hdat⟩
    · obtain ⟨_, hpc, hdat, hsp, _, _⟩ := print_boolean_run_pos R d stk n spv h h4
      exact ⟨hpc, hsp, hdat⟩
  · intro R d stk
    obtain ⟨_, hpc, hdat, hsp⟩ := print_new_line_run R d stk
    exact ⟨hpc, hsp, hdat⟩
  · intro R d stk v1 v2
    obtain ⟨_, hpc, hdat, hsp⟩ := compare_eq_run R d stk v1 v2
    exact ⟨hpc, hsp, hdat⟩
  · intro R d stk v1 v2
    obtain ⟨_, hpc, hdat, hsp⟩ := compare_neq_run R d stk v1 v2
    exact ⟨hpc, hsp, hdat⟩

/-- Concrete instances of C10 on the worked-example data segment. -/
theorem runtime_frame_effects_witness :
    (stdData .print_int_char = [0] ∧ (4 : Nat) ≤ 16) ∧
    (routineRun .print_int { R0 with a0 := .num 42 } stdData stk0).regs.sp = R0.sp ∧
    (routineRun .print_string { R0 with a0 := .addr (.string 2) 0 } stdData stk0).data
      = stdData ∧
    (routineRun .print_boolean { R0 with a0 := .num 1, sp := .stackAddr 16 } stdData stk0).data
      = stdData ∧
    (routineRun .print_new_line R0 stdData stk0).data = stdData ∧
    (routineRun .compare_eq { R0 with a0 := .num 1, a1 := .num 2 } stdData stk0).data
      = stdData ∧
    (routineRun .compare_neq { R0 with a0 := .num 1, a1 := .num 2 } stdData stk0).data
      = stdData :=
  ⟨⟨rfl, by decide⟩,
   (runtime_frame_effects.1 R0 stdData stk0 42 0 rfl).2.1,
   (runtime_frame_effects.2.1 R0 stdData stk0 (.string 2) 0).2.2,
   (runtime_frame_effects.2.2.1 R0 stdData stk0 1 16 (by decide)).2.2,
   (runtime_frame_effects.2.2.2.1 R0 stdData stk0).2.2,
   (runtime_frame_effects.2.2.2.2.1 R0 stdData stk0 (.num 1) (.num 2)).2.2,
   (runtime_frame_effects.2.2.2.2.2 R0 stdData stk0 (.num 1) (.num 2)).2.2⟩

/-
The code-generation backend.  The generator itself is not part of the
repository snapshot (only its emitted artifact my_program.s is), so it is
modelled from the specification, sections 4.1, 4.2, 4.4, 4.5 and 6, with
my_program.s fixing the concrete lowering shapes and the data-section
layout.
-/

/-- Modelled from the spec: expressions of the source language consumed
by the backend — integer, boolean and string literals, resolved variable
references (already-disambiguated name plus unique id), addition, and the
equality and inequality comparisons lowered through compare_eq and
compare_neq. -/
inductive Expr
  | num (n : Nat)
  | boolLit (b : Bool)
  | strLit (s : List Nat)
  | varRef (name : String) (id : Nat)
  | addE (l r : Expr)
  | eqE (l r : Expr)
  | neqE (l r : Expr)
deriving DecidableEq, Repr

/-- Which runtime print routine a print statement calls, following the
type the semantic analyzer established for the argument. -/
inductive PrintKind
  | pInt
  | pString
  | pBool
deriving DecidableEq, Repr

/-- Modelled from the spec: statements of the source language — variable
declaration, assignment, print, while loop, if conditional, and sequencing
(blocks). -/
inductive Stmt
  | skip
  | decl (name : String) (id : Nat)
  | assign (name : String) (id : Nat) (e : Expr)
  | printS (k : PrintKind) (e : Expr)
  | whileS (c : Expr) (body : Stmt)
  | ifS (c : Expr) (thn els : Stmt)
  | seq (s1 s2 : Stmt)
deriving DecidableEq, Repr

/-- Modelled from the spec (section 9): the code-generation context — the
label counter shared by all control-flow constructs, the string pool, and
the list of allocated variable slots, threaded through every emission
call and reset per compilation. -/
structure Ctx where
  labelCounter : Nat
  pool : List (List Nat)
  slots : List (String × Nat)
deriving DecidableEq, Repr

/-- Modelled from the spec (section 4.2): intern always appends a new
pool entry and returns the pool running count as the index of the fresh
symbolic label string_N. -/
def intern (bs : List Nat) (c : Ctx) : Nat × Ctx :=
  (c.pool.length, { c with pool := c.pool ++ [bs] })

/-- The runtime routine a print statement calls. -/
def printRoutine : PrintKind → CLabel
  | .pInt => .print_int
  | .pString => .print_string
  | .pBool => .print_boolean

/-- Modelled from the spec (section 4.5): expression emission leaves the
value in the target register; binary operands are evaluated left first
into a scratch register; comparisons load the operands into a0 and a1 and
call the runtime comparison routine, leaving the boolean in a0 (the shape
of the condition code in my_program.s). -/
def genExpr (rd : Reg) : Expr → Ctx → List Instr × Ctx
  | .num n, c => ([.li rd n], c)
  | .boolLit b, c => ([.li rd (cond b 1 0)], c)
  | .strLit s, c =>
      let r := intern s c
      ([.la rd (.string r.1)], r.2)
  | .varRef nm id, c => ([.la .t3 (.slot nm id), .lbu rd 0 .t3], c)
  | .addE l r, c =>
      let pl := genExpr .t0 l c
      let pr := genExpr .t1 r pl.2
      (pl.1 ++ pr.1 ++ [.add rd .t0 .t1], pr.2)
  | .eqE l r, c =>
      let pl := genExpr .a0 l c
      let pr := genExpr .a1 r pl.2
      (pl.1 ++ pr.1 ++ [.call .compare_eq], pr.2)
  | .neqE l r, c =>
      let pl := genExpr .a0 l c
      let pr := genExpr .a1 r pl.2
      (pl.1 ++ pr.1 ++ [.call .compare_neq], pr.2)

/-- Modelled from the spec (sections 4.1, 4.4, 4.5): statement lowering.
A declaration allocates the slot and initializes it to zero (shape of
my_program.s lines 5-7); a while loop allocates its label pair from the
shared counter before any of its code is generated (pre-order), then
emits start label, condition into a0, branch-if-false to the end label,
body, jump back, end label; a conditional follows the same
allocate-before-emit discipline with else and end labels. -/
def genStmt : Stmt → Ctx → List Instr × Ctx
  | .skip, c => ([], c)
  | .decl nm id, c =>
      ([.la .t1 (.slot nm id), .li .t0 0, .sb .t0 0 .t1],
       { c with slots := c.slots ++ [(nm, id)] })
  | .assign nm id e, c =>
      let p := genExpr .t0 e c
      (p.1 ++ [.la .t1 (.slot nm id), .sb .t0 0 .t1], p.2)
  | .printS k e, c =>
      let p := genExpr .a0 e c
      (p.1 ++ [.call (printRoutine k), .call .print_new_line], p.2)
  | .whileS cnd body, c =>
      let n := c.labelCounter
      let pc := genExpr .a0 cnd { c with labelCounter := n + 1 }
      let pb := genStmt body pc.2
      (.label (.while_start n) :: pc.1 ++ [.beq .a0 .zero (.while_end n)] ++ pb.1
         ++ [.j (.while_start n), .label (.while_end n)], pb.2)
  | .ifS cnd thn els, c =>
      let n := c.labelCounter
      let pc := genExpr .a0 cnd { c with labelCounter := n + 1 }
      let pt := genStmt thn pc.2
      let pe := genStmt els pt.2
      (pc.1 ++ [.beq .a0 .zero (.if_else n)] ++ pt.1
         ++ [.j (.if_end n), .label (.if_else n)] ++ pe.1 ++ [.label (.if_end n)], pe.2)
  | .seq s1 s2, c =>
      let p1 := genStmt s1 c
      let p2 := genStmt s2 p1.2
      (p1.1 ++ p2.1, p2.2)

/-- Entries of the rendered static data section: a one-byte variable
slot, the pooled newline byte, the reusable print buffer byte, or a
pooled string (16-bit length directive followed by raw bytes). -/
inductive DataEntry
  | slotE (name : String) (id : Nat)
  | newlineE
  | bufferE
  | strE (idx : Nat) (bytes : List Nat)
deriving DecidableEq, Repr

/-- The full emitted artifact: text section and data section. -/
structure Output where
  text : List Instr
  data : List DataEntry
deriving DecidableEq, Repr

/-- The initial context of a compilation: the pool is bootstrapped by
interning "false" then "true" (my_program.s: string_0 and string_1) so
that print_boolean can hard-code their labels; counter and slots start
empty. -/
def initCtx : Ctx :=
  (intern trueBytes (intern falseBytes ⟨0, [], []⟩).2).2

/-- The explicit OS-exit sequence emitted at program end
(my_program.s lines 59-61). -/
def exitSeq : List Instr := [.li .a7 93, .li .a0 0, .ecall]

/-- Final context of a compilation. -/
def emitCtx (s : Stmt) : Ctx := (genStmt s initCtx).2

/-- Modelled from the spec (section 6) and the layout of my_program.s:
the emitted artifact is the _start entry label, the program instructions
ending in the OS-exit sequence, the runtime library, then the data
section: variable slots, the pooled newline byte, the print buffer byte,
and the pooled strings in allocation order.  (Note: my_program.s places
new_line before print_int_char, lines 128-129.) -/
def emit (s : Stmt) : Output :=
  let p := genStmt s initCtx
  { text := .label .startL :: .nop :: p.1 ++ exitSeq ++ runtimeLib,
    data := p.2.slots.map (fun q => .slotE q.1 q.2) ++ [.newlineE, .bufferE]
              ++ p.2.pool.enum.map (fun q => .strE q.1 q.2) }

/-- Number of loop or conditional constructs in a statement. -/
def numC : Stmt → Nat
  | .whileS _ b => 1 + numC b
  | .ifS _ t e => 1 + numC t + numC e
  | .seq s1 s2 => numC s1 + numC s2
  | _ => 0

/-- The label definitions appearing in an instruction list. -/
def labelDefs (code : List Instr) : List CLabel :=
  code.filterMap fun i =>
    match i with
    | .label l => some l
    | _ => none

/-- The pre-order plan of control-flow constructs: for each loop or
conditional, whether it is a while (true) or an if (false), paired with
the counter value it receives at the moment its code generation begins. -/
def planPairs : Stmt → Nat → List (Bool × Nat)
  | .whileS _ b, n => (true, n) :: planPairs b (n + 1)
  | .ifS _ t e, n => (false, n) :: (planPairs t (n + 1) ++ planPairs e (n + 1 + numC t))
  | .seq s1 s2, n => planPairs s1 n ++ planPairs s2 (n + numC s1)
  | _, _ => []

/-- The start/end (or else/end) label pair of one construct. -/
def pairLabels : Bool × Nat → List CLabel
  | (true, n) => [.while_start n, .while_end n]
  | (false, n) => [.if_else n, .if_end n]

/-- Numeric suffix of a generated control-flow label. -/
def sfx : CLabel → Nat
  | .while_start n => n
  | .while_end n => n
  | .if_else n => n
  | .if_end n => n
  | _ => 0

@[simp] theorem labelDefs_nil : labelDefs [] = [] := rfl

@[simp] theorem labelDefs_cons_label (l : CLabel) (is : List Instr) :
    labelDefs (.label l :: is) = l :: labelDefs is := rfl

@[simp] theorem labelDefs_cons_beq (r1 r2 : Reg) (t : CLabel) (is : List Instr) :
    labelDefs (.beq r1 r2 t :: is) = labelDefs is := rfl

@[simp] theorem labelDefs_cons_j (t : CLabel) (is : List Instr) :
    labelDefs (.j t :: is) = labelDefs is := rfl

theorem labelDefs_append (a b : List Instr) :
    labelDefs (a ++ b) = labelDefs a ++ labelDefs b := by
  simp [labelDefs]

theorem genExpr_no_labels (e : Expr) : ∀ (rd : Reg) (c : Ctx),
    labelDefs (genExpr rd e c).1 = [] ∧
    (genExpr rd e c).2.labelCounter = c.labelCounter ∧
    (genExpr rd e c).2.slots = c.slots := by
  induction e with
  | num n => intro rd c; simp [genExpr, labelDefs]
  | boolLit b => intro rd c; simp [genExpr, labelDefs]
  | strLit s => intro rd c; simp [genExpr, labelDefs, intern]
  | varRef nm id => intro rd c; simp [genExpr, labelDefs]
  | addE l r ihl ihr =>
      intro rd c
      obtain ⟨hl1, hl2, hl3⟩ := ihl .t0 c
      obtain ⟨hr1, hr2, hr3⟩ := ihr .t1 (genExpr .t0 l c).2
      simp only [genExpr, labelDefs_append, hl1, hr1, List.nil_append]
      exact ⟨by simp [labelDefs], by rw [hr2, hl2], by rw [hr3, hl3]⟩
  | eqE l r ihl ihr =>
      intro rd c
      obtain ⟨hl1, hl2, hl3⟩ := ihl .a0 c
      obtain ⟨hr1, hr2, hr3⟩ := ihr .a1 (genExpr .a0 l c).2
      simp only [genExpr, labelDefs_append, hl1, hr1, List.nil_append]
      exact ⟨by simp [labelDefs], by rw [hr2, hl2], by rw [hr3, hl3]⟩
  | neqE l r ihl ihr =>
      intro rd c
      obtain ⟨hl1, hl2, hl3⟩ := ihl .a0 c
      obtain ⟨hr1, hr2, hr3⟩ := ihr .a1 (genExpr .a0 l c).2
      simp only [genExpr, labelDefs_append, hl1, hr1, List.nil_append]
      exact ⟨by simp [labelDefs], by rw [hr2, hl2], by rw [hr3, hl3]⟩

theorem genStmt_labels (s : Stmt) : ∀ (c : Ctx),
    (genStmt s c).2.labelCounter = c.labelCounter + numC s ∧
    List.Perm (labelDefs (genStmt s c).1)
      ((planPairs s c.labelCounter).flatMap pairLabels) := by
  induction s with
  | skip => intro c; simp [genStmt, labelDefs, planPairs, numC]
  | decl nm id => intro c; simp [genStmt, labelDefs, planPairs, numC]
  | assign nm id e =>
      intro c
      obtain ⟨h1, h2, _⟩ := genExpr_no_labels e .t0 c
      refine ⟨by simp [genStmt, h2, numC], ?_⟩
      simp only [genStmt, labelDefs_append, h1, List.nil_append, planPairs]
      simp [labelDefs]
  | printS k e =>
      intro c
      obtain ⟨h1, h2, _⟩ := genExpr_no_labels e .a0 c
      refine ⟨by simp [genStmt, h2, numC], ?_⟩
      simp only [genStmt, labelDefs_append, h1, List.nil_append, planPairs]
      simp [labelDefs]
  | whileS cnd body ih =>
      intro c
      obtain ⟨hc1, hc2, _⟩ := genExpr_no_labels cnd .a0 { c with labelCounter := c.labelCounter + 1 }
      obtain ⟨hb1, hb2⟩ := ih (genExpr .a0 cnd { c with labelCounter := c.labelCounter + 1 }).2
      rw [hc2] at hb2
      refine ⟨by simp only [genStmt]; rw [hb1, hc2]; simp [numC]; omega, ?_⟩
      simp only [genStmt, planPairs, List.flatMap_cons, pairLabels, List.cons_append,
        labelDefs_cons_label, labelDefs_append, hc1, List.nil_append, labelDefs_cons_beq,
        labelDefs_cons_j, labelDefs_nil, List.append_nil, List.append_assoc]
      refine List.Perm.cons _ ?_
      exact (List.perm_append_singleton _ _).trans (List.Perm.cons _ hb2)
  | ifS cnd thn els iht ihe =>
      intro c
      obtain ⟨hc1, hc2, _⟩ := genExpr_no_labels cnd .a0 { c with labelCounter := c.labelCounter + 1 }
      obtain ⟨ht1, ht2⟩ := iht (genExpr .a0 cnd { c with labelCounter := c.labelCounter + 1 }).2
      obtain ⟨he1, he2⟩ :=
        ihe (genStmt thn (genExpr .a0 cnd { c with labelCounter := c.labelCounter + 1 }).2).2
      rw [hc2] at ht2
      rw [ht1, hc2] at he2
      refine ⟨by simp only [genStmt]; rw [he1, ht1, hc2]; simp [numC]; omega, ?_⟩
      simp only [genStmt, planPairs, List.flatMap_cons, List.flatMap_append, pairLabels,
        List.cons_append, labelDefs_cons_label, labelDefs_append, hc1, List.nil_append,
        labelDefs_cons_beq, labelDefs_cons_j, labelDefs_nil, List.append_nil,
        List.append_assoc, List.singleton_append]
      refine List.Perm.trans List.perm_middle (List.Perm.cons _ ?_)
      refine List.Perm.trans ?_ (List.Perm.cons _ (List.Perm.append ht2 he2))
      rw [← List.append_assoc]
      exact List.perm_append_singleton _ _
  | seq s1 s2 ih1 ih2 =>
      intro c
      obtain ⟨h11, h12⟩ := ih1 c
      obtain ⟨h21, h22⟩ := ih2 (genStmt s1 c).2
      rw [h11] at h22
      refine ⟨by simp only [genStmt]; rw [h21, h11]; simp [numC]; omega, ?_⟩
      simp only [genStmt, labelDefs_append, planPairs, List.flatMap_append]
      exact List.Perm.append h12 h22

theorem range1_append (a b c : Nat) :
    List.range' a b ++ List.range' (a + b) c = List.range' a (b + c) := by
  have h := List.range'_append a b c 1
  rw [one_mul] at h
  rw [Nat.add_comm b c]
  exact h

theorem planPairs_snd (s : Stmt) : ∀ (n : Nat),
    (planPairs s n).map Prod.snd = List.range' n (numC s) := by
  induction s with
  | skip => intro n; simp [planPairs, numC]
  | decl nm id => intro n; simp [planPairs, numC]
  | assign nm id e => intro n; simp [planPairs, numC]
  | printS k e => intro n; simp [planPairs, numC]
  | whileS cnd body ih =>
      intro n
      have : numC (.whileS cnd body) = numC body + 1 := by simp [numC]; omega
      rw [this, List.range'_succ]
      simp [planPairs, ih]
  | ifS cnd thn els iht ihe =>
      intro n
      have h1 : numC (.ifS cnd thn els) = (numC thn + numC els) + 1 := by simp [numC]; omega
      rw [h1, List.range'_succ]
      simp only [planPairs, List.map_cons, List.map_append, iht, ihe]
      rw [range1_append]
  | seq s1 s2 ih1 ih2 =>
      intro n
      simp only [planPairs, List.map_append, ih1, ih2, numC]
      rw [range1_append]

theorem mem_pairLabels_sfx (x : CLabel) (p : Bool × Nat) (h : x ∈ pairLabels p) :
    sfx x = p.2 := by
  obtain ⟨b, k⟩ := p
  cases b <;> simp [pairLabels] at h <;> rcases h with h | h <;> subst h <;> rfl

theorem pairLabels_flatMap_nodup (ps : List (Bool × Nat))
    (h : (ps.map Prod.snd).Nodup) : (ps.flatMap pairLabels).Nodup := by
  induction ps with
  | nil => simp
  | cons p ps ih =>
      simp only [List.map_cons, List.nodup_cons] at h
      simp only [List.flatMap_cons]
      rw [List.nodup_append]
      refine ⟨?_, ih h.2, ?_⟩
      · obtain ⟨b, k⟩ := p
        cases b <;> simp [pairLabels]
      · intro x hx hx2
        have h1 := mem_pairLabels_sfx x p hx
        obtain ⟨q, hq, hxq⟩ := List.mem_flatMap.mp hx2
        have h2 := mem_pairLabels_sfx x q hxq
        exact h.1 (h1 ▸ h2 ▸ List.mem_map_of_mem Prod.snd hq)

/-- C1: every loop or conditional construct receives a fresh label pair
from the single shared counter at the moment code generation for it
begins (pre-order): the final counter advances by exactly the number of
constructs, the emitted label definitions are, up to order, exactly one
start/end (while) or else/end (if) pair per construct, the pair suffixes
are the consecutive counter values starting at the incoming counter in
pre-order (so a construct's suffix precedes all suffixes of its nested
constructs), there are exactly N pairs for N constructs with no two
constructs sharing a numeric suffix, and the label definitions are
pairwise distinct.  This holds for every program and every starting
context, hence at arbitrary nesting depth. -/
theorem label_allocation_fresh (s : Stmt) (c : Ctx) :
    (genStmt s c).2.labelCounter = c.labelCounter + numC s ∧
    List.Perm (labelDefs (genStmt s c).1)
      ((planPairs s c.labelCounter).flatMap pairLabels) ∧
    (planPairs s c.labelCounter).map Prod.snd = List.range' c.labelCounter (numC s) ∧
    (planPairs s c.labelCounter).length = numC s ∧
    (labelDefs (genStmt s c).1).Nodup := by
  obtain ⟨h1, h2⟩ := genStmt_labels s c
  have hsnd := planPairs_snd s c.labelCounter
  have hnd : ((planPairs s c.labelCounter).map Prod.snd).Nodup := by
    rw [hsnd]; exact List.nodup_range' _ _
  refine ⟨h1, h2, hsnd, ?_, ?_⟩
  · have := congrArg List.length hsnd
    simpa using this
  · exact h2.nodup_iff.mpr (pairLabels_flatMap_nodup _ hnd)

/-- C2: a while loop lowers to exactly the sequence: start label
definition, condition code leaving its boolean in the fixed result
register a0, branch-if-false (beq a0, zero) to the end label, loop body,
unconditional jump back to the start label, end label definition; the
label pair is taken from the counter value at the start of the construct
(the condition and body are generated with the counter already advanced). -/
theorem while_lowering_shape (cnd : Expr) (body : Stmt) (c : Ctx) :
    (genStmt (.whileS cnd body) c).1 =
      .label (.while_start c.labelCounter)
        :: (genExpr .a0 cnd { c with labelCounter := c.labelCounter + 1 }).1
        ++ [.beq .a0 .zero (.while_end c.labelCounter)]
        ++ (genStmt body (genExpr .a0 cnd { c with labelCounter := c.labelCounter + 1 }).2).1
        ++ [.j (.while_start c.labelCounter), .label (.while_end c.labelCounter)] := by
  simp [genStmt]

/-- Variables declared in a statement, in order of declaration. -/
def declVars : Stmt → List (String × Nat)
  | .decl nm id => [(nm, id)]
  | .whileS _ b => declVars b
  | .ifS _ t e => declVars t ++ declVars e
  | .seq s1 s2 => declVars s1 ++ declVars s2
  | _ => []

/-- Variables read inside an expression. -/
def exprVars : Expr → List (String × Nat)
  | .varRef nm id => [(nm, id)]
  | .addE l r => exprVars l ++ exprVars r
  | .eqE l r => exprVars l ++ exprVars r
  | .neqE l r => exprVars l ++ exprVars r
  | _ => []

/-- All resolved variable occurrences of a statement: declarations,
assignment targets and expression reads. -/
def allVars : Stmt → List (String × Nat)
  | .skip => []
  | .decl nm id => [(nm, id)]
  | .assign nm id e => (nm, id) :: exprVars e
  | .printS _ e => exprVars e
  | .whileS c b => exprVars c ++ allVars b
  | .ifS c t e => exprVars c ++ allVars t ++ allVars e
  | .seq s1 s2 => allVars s1 ++ allVars s2

/-- The symbolic slot addresses referenced by the la instructions through
which every load and store of a variable goes. -/
def slotRefs (code : List Instr) : List (String × Nat) :=
  code.filterMap fun i =>
    match i with
    | .la _ (.slot nm id) => some (nm, id)
    | _ => none

theorem slotRefs_append (a b : List Instr) :
    slotRefs (a ++ b) = slotRefs a ++ slotRefs b := by
  simp [slotRefs]

@[simp] theorem slotRefs_nil : slotRefs [] = [] := rfl

@[simp] theorem slotRefs_cons_label (l : CLabel) (is : List Instr) :
    slotRefs (.label l :: is) = slotRefs is := rfl

@[simp] theorem slotRefs_cons_beq (r1 r2 : Reg) (t : CLabel) (is : List Instr) :
    slotRefs (.beq r1 r2 t :: is) = slotRefs is := rfl

@[simp] theorem slotRefs_cons_j (t : CLabel) (is : List Instr) :
    slotRefs (.j t :: is) = slotRefs is := rfl

theorem genStmt_slots (s : Stmt) : ∀ (c : Ctx),
    (genStmt s c).2.slots = c.slots ++ declVars s := by
  induction s with
  | skip => intro c; simp [genStmt, declVars]
  | decl nm id => intro c; simp [genStmt, declVars]
  | assign nm id e =>
      intro c
      obtain ⟨_, _, h3⟩ := genExpr_no_labels e .t0 c
      simp [genStmt, h3, declVars]
  | printS k e =>
      intro c
      obtain ⟨_, _, h3⟩ := genExpr_no_labels e .a0 c
      simp [genStmt, h3, declVars]
  | whileS cnd body ih =>
      intro c
      obtain ⟨_, _, h3⟩ := genExpr_no_labels cnd .a0 { c with labelCounter := c.labelCounter + 1 }
      simp only [genStmt, declVars]
      rw [ih, h3]
  | ifS cnd thn els iht ihe =>
      intro c
      obtain ⟨_, _, h3⟩ := genExpr_no_labels cnd .a0 { c with labelCounter := c.labelCounter + 1 }
      simp only [genStmt, declVars]
      rw [ihe, iht, h3, List.append_assoc]
  | seq s1 s2 ih1 ih2 =>
      intro c
      simp only [genStmt, declVars]
      rw [ih2, ih1, List.append_assoc]

theorem genExpr_pool_ext (e : Expr) : ∀ (rd : Reg) (c : Ctx),
    ∃ L, (genExpr rd e c).2.pool = c.pool ++ L := by
  induction e with
  | num n => intro rd c; exact ⟨[], by simp [genExpr]⟩
  | boolLit b => intro rd c; exact ⟨[], by simp [genExpr]⟩
  | strLit s => intro rd c; exact ⟨[s], by simp [genExpr, intern]⟩
  | varRef nm id => intro rd c; exact ⟨[], by simp [genExpr]⟩
  | addE l r ihl ihr =>
      intro rd c
      obtain ⟨L1, h1⟩ := ihl .t0 c
      obtain ⟨L2, h2⟩ := ihr .t1 (genExpr .t0 l c).2
      exact ⟨L1 ++ L2, by simp [genExpr, h2, h1]⟩
  | eqE l r ihl ihr =>
      intro rd c
      obtain ⟨L1, h1⟩ := ihl .a0 c
      obtain ⟨L2, h2⟩ := ihr .a1 (genExpr .a0 l c).2
      exact ⟨L1 ++ L2, by simp [genExpr, h2, h1]⟩
  | neqE l r ihl ihr =>
      intro rd c
      obtain ⟨L1, h1⟩ := ihl .a0 c
      obtain ⟨L2, h2⟩ := ihr .a1 (genExpr .a0 l c).2
      exact ⟨L1 ++ L2, by simp [genExpr, h2, h1]⟩

theorem genStmt_pool_ext (s : Stmt) : ∀ (c : Ctx),
    ∃ L, (genStmt s c).2.pool = c.pool ++ L := by
  induction s with
  | skip => intro c; exact ⟨[], by simp [genStmt]⟩
  | decl nm id => intro c; exact ⟨[], by simp [genStmt]⟩
  | assign nm id e =>
      intro c
      obtain ⟨L, h⟩ := genExpr_pool_ext e .t0 c
      exact ⟨L, by simp [genStmt, h]⟩
  | printS k e =>
      intro c
      obtain ⟨L, h⟩ := genExpr_pool_ext e .a0 c
      exact ⟨L, by simp [genStmt, h]⟩
  | whileS cnd body ih =>
      intro c
      obtain ⟨L1, h1⟩ := genExpr_pool_ext cnd .a0 { c with labelCounter := c.labelCounter + 1 }
      obtain ⟨L2, h2⟩ := ih (genExpr .a0 cnd { c with labelCounter := c.labelCounter + 1 }).2
      exact ⟨L1 ++ L2, by simp only [genStmt]; rw [h2, h1]; simp [List.append_assoc]⟩
  | ifS cnd thn els iht ihe =>
      intro c
      obtain ⟨L1, h1⟩ := genExpr_pool_ext cnd .a0 { c with labelCounter := c.labelCounter + 1 }
      obtain ⟨L2, h2⟩ := iht (genExpr .a0 cnd { c with labelCounter := c.labelCounter + 1 }).2
      obtain ⟨L3, h3⟩ :=
        ihe (genStmt thn (genExpr .a0 cnd { c with labelCounter := c.labelCounter + 1 }).2).2
      exact ⟨L1 ++ L2 ++ L3, by simp only [genStmt]; rw [h3, h2, h1]; simp [List.append_assoc]⟩
  | seq s1 s2 ih1 ih2 =>
      intro c
      obtain ⟨L1, h1⟩ := ih1 c
      obtain ⟨L2, h2⟩ := ih2 (genStmt s1 c).2
      exact ⟨L1 ++ L2, by simp only [genStmt]; rw [h2, h1]; simp [List.append_assoc]⟩

theorem genExpr_slotRefs (e : Expr) : ∀ (rd : Reg) (c : Ctx),
    slotRefs (genExpr rd e c).1 = exprVars e := by
  induction e with
  | num n => intro rd c; simp [genExpr, slotRefs, exprVars]
  | boolLit b => intro rd c; simp [genExpr, slotRefs, exprVars]
  | strLit s => intro rd c; simp [genExpr, slotRefs, exprVars, intern]
  | varRef nm id => intro rd c; simp [genExpr, slotRefs, exprVars]
  | addE l r ihl ihr =>
      intro rd c
      simp only [genExpr, slotRefs_append, ihl, ihr, exprVars]
      simp [slotRefs]
  | eqE l r ihl ihr =>
      intro rd c
      simp only [genExpr, slotRefs_append, ihl, ihr, exprVars]
      simp [slotRefs]
  | neqE l r ihl ihr =>
      intro rd c
      simp only [genExpr, slotRefs_append, ihl, ihr, exprVars]
      simp [slotRefs]

theorem genStmt_slotRefs_sub (s : Stmt) : ∀ (c : Ctx) (p : String × Nat),
    p ∈ slotRefs (genStmt s c).1 → p ∈ allVars s := by
  induction s with
  | skip => intro c p h; simp [genStmt, slotRefs] at h
  | decl nm id =>
      intro c p h
      simp [genStmt, slotRefs] at h
      simp [allVars, h]
  | assign nm id e =>
      intro c p h
      simp only [genStmt, slotRefs_append, genExpr_slotRefs, List.mem_append] at h
      rcases h with h | h
      · exact List.mem_cons_of_mem _ h
      · simp [slotRefs] at h
        simp [allVars, h]
  | printS k e =>
      intro c p h
      simp only [genStmt, slotRefs_append, genExpr_slotRefs, List.mem_append] at h
      rcases h with h | h
      · exact h
      · simp [slotRefs] at h
  | whileS cnd body ih =>
      intro c p h
      simp only [genStmt, List.cons_append, slotRefs_cons_label, slotRefs_append,
        genExpr_slotRefs, slotRefs_cons_beq, slotRefs_cons_j, slotRefs_nil,
        List.append_nil, List.nil_append, List.mem_append] at h
      simp only [allVars, List.mem_append]
      rcases h with h | h
      · exact Or.inl h
      · exact Or.inr (ih _ p h)
  | ifS cnd thn els iht ihe =>
      intro c p h
      simp only [genStmt, List.cons_append, slotRefs_cons_label, slotRefs_append,
        genExpr_slotRefs, slotRefs_cons_beq, slotRefs_cons_j, slotRefs_nil,
        List.append_nil, List.nil_append, List.mem_append] at h
      simp only [allVars, List.mem_append]
      rcases h with (h | h) | h
      · exact Or.inl (Or.inl h)
      · exact Or.inl (Or.inr (iht _ p h))
      · exact Or.inr (ihe _ p h)
  | seq s1 s2 ih1 ih2 =>
      intro c p h
      simp only [genStmt, slotRefs_append, List.mem_append] at h
      simp only [allVars, List.mem_append]
      rcases h with h | h
      · exact Or.inl (ih1 c p h)
      · exact Or.inr (ih2 (genStmt s1 c).2 p h)

theorem declVars_sub_allVars (s : Stmt) : ∀ p ∈ declVars s, p ∈ allVars s := by
  induction s with
  | skip => simp [declVars]
  | decl nm id => simp [declVars, allVars]
  | assign nm id e => simp [declVars]
  | printS k e => simp [declVars]
  | whileS cnd body ih =>
      intro p h
      simp only [declVars] at h
      simp only [allVars, List.mem_append]
      exact Or.inr (ih p h)
  | ifS cnd thn els iht ihe =>
      intro p h
      simp only [declVars, List.mem_append] at h
      simp only [allVars, List.mem_append]
      rcases h with h | h
      · exact Or.inl (Or.inr (iht p h))
      · exact Or.inr (ihe p h)
  | seq s1 s2 ih1 ih2 =>
      intro p h
      simp only [declVars, List.mem_append] at h
      simp only [allVars, List.mem_append]
      rcases h with h | h
      · exact Or.inl (ih1 p h)
      · exact Or.inr (ih2 p h)

@[simp] theorem slotRefs_cons_nop (is : List Instr) :
    slotRefs (.nop :: is) = slotRefs is := rfl

/-- Is a data entry the slot of the variable with this resolved id. -/
def isSlotFor (id : Nat) : DataEntry → Bool
  | .slotE _ i => decide (i = id)
  | _ => false

/-- The pool index announced by a string data entry. -/
def strIdx : DataEntry → Option Nat
  | .strE i _ => some i
  | _ => none

theorem filter_slotE_length (L : List (String × Nat)) (id : Nat) :
    ((L.map (fun q => DataEntry.slotE q.1 q.2)).filter (isSlotFor id)).length
      = (L.map Prod.snd).count id := by
  induction L with
  | nil => rfl
  | cons q L ih =>
      rcases eq_or_ne q.2 id with h | h
      · subst h
        simp [List.filter_cons, List.count_cons, isSlotFor, ih]
      · simp [List.filter_cons, List.count_cons, isSlotFor, ih, h, Ne.symm h]

/-- The worked-example program of the spec (section 8) and my_program.s:
two nested while loops over byte variables o and i, printing " inner",
the inner counter, " outer" and the outer counter. -/
def exampleProg : Stmt :=
  .seq (.decl "o" 0) (.seq (.assign "o" 0 (.num 0))
    (.whileS (.neqE (.varRef "o" 0) (.num 3))
      (.seq (.assign "o" 0 (.addE (.num 1) (.varRef "o" 0)))
        (.seq (.decl "i" 1) (.seq (.assign "i" 1 (.num 0))
          (.seq
            (.whileS (.neqE (.varRef "i" 1) (.num 2))
              (.seq (.assign "i" 1 (.addE (.num 1) (.varRef "i" 1)))
                (.seq (.printS .pString (.strLit innerBytes))
                      (.printS .pInt (.varRef "i" 1)))))
            (.seq (.printS .pString (.strLit outerBytes))
                  (.printS .pInt (.varRef "o" 0)))))))))

/-- C7: under the upstream guarantees that resolved variable ids are
consistent (one name per id) and declared ids are pairwise distinct, the
emitted data section contains exactly one static slot for each declared
variable id, and every load or store referencing that variable goes
through the same symbolic slot address (the la of slot name_id). -/
theorem variable_slots_unique (s : Stmt)
    (hcons : ∀ p ∈ allVars s, ∀ q ∈ allVars s, p.2 = q.2 → p.1 = q.1)
    (hnodup : ((declVars s).map Prod.snd).Nodup) :
    ∀ nm id, (nm, id) ∈ declVars s →
      ((emit s).data.filter (isSlotFor id)).length = 1 ∧
      ∀ nm2, (nm2, id) ∈ slotRefs (emit s).text → nm2 = nm := by
  intro nm id hmem
  have hslots : (emitCtx s).slots = declVars s := by
    have h := genStmt_slots s initCtx
    simp only [emitCtx, h]
    rfl
  constructor
  · simp only [emit, List.filter_append]
    rw [show (emitCtx s).slots = (genStmt s initCtx).2.slots from rfl] at hslots
    have h2 : List.filter (isSlotFor id) [DataEntry.newlineE, DataEntry.bufferE] = [] := rfl
    have h3 : List.filter (isSlotFor id)
        ((genStmt s initCtx).2.pool.enum.map (fun q => DataEntry.strE q.1 q.2)) = [] := by
      rw [List.filter_eq_nil_iff]
      intro a ha
      obtain ⟨q, _, hq⟩ := List.mem_map.mp ha
      rw [← hq]
      simp [isSlotFor]
    rw [hslots, h2, h3, List.append_nil, List.append_nil, filter_slotE_length]
    have hin : id ∈ (declVars s).map Prod.snd := List.mem_map_of_mem Prod.snd hmem
    exact List.count_eq_one_of_mem hnodup hin
  · intro nm2 href
    have hlib : slotRefs runtimeLib = [] := rfl
    have hexit : slotRefs exitSeq = [] := rfl
    simp only [emit, List.cons_append, slotRefs_cons_label, slotRefs_cons_nop,
      slotRefs_append, hlib, hexit, List.append_nil, List.mem_append] at href
    have hv : (nm2, id) ∈ allVars s := genStmt_slotRefs_sub s initCtx _ href
    have hd : (nm, id) ∈ allVars s := declVars_sub_allVars s _ hmem
    exact hcons (nm2, id) hv (nm, id) hd rfl

/-- Concrete instance of C7 on the worked-example program: variable o
(resolved id 0) owns exactly one slot in the emitted data section. -/
theorem variable_slots_unique_witness :
    (∀ p ∈ allVars exampleProg, ∀ q ∈ allVars exampleProg, p.2 = q.2 → p.1 = q.1) ∧
    ((declVars exampleProg).map Prod.snd).Nodup ∧
    ("o", 0) ∈ declVars exampleProg ∧
    ((emit exampleProg).data.filter (isSlotFor 0)).length = 1 :=
  ⟨by decide, by decide, by decide,
   (variable_slots_unique exampleProg (by decide) (by decide) "o" 0 (by decide)).1⟩

/-- C6 as stated is false on the code: the claim orders the data section
as slots, print-buffer byte, newline, strings, but the emitted artifact
(my_program.s lines 126-129) and hence the generator place new_line
before print_int_char.  Concretely, for the empty program the data
section is not buffer-then-newline followed by the pooled strings. -/
theorem data_layout_counterexample :
    (emit Stmt.skip).data ≠
      (emitCtx Stmt.skip).slots.map (fun q => DataEntry.slotE q.1 q.2)
        ++ [DataEntry.bufferE, DataEntry.newlineE]
        ++ (emitCtx Stmt.skip).pool.enum.map (fun q => DataEntry.strE q.1 q.2) := by
  decide

/-- C6 (amended: the newline entry precedes the print-buffer entry, as in
my_program.s): every emitted artifact is, in order, the text-section
entry label _start, the program instructions ending with the explicit
OS-exit system call sequence (li a7, 93; li a0, 0; ecall — no implicit
fallthrough return), the runtime-library subroutines, then a data section
listing all allocated variable slots, the pooled newline string, the
reusable print-buffer byte, and all pooled string constants in allocation
order. -/
theorem emit_layout_amended (s : Stmt) :
    (emit s).text =
      .label .startL :: .nop :: (genStmt s initCtx).1 ++ exitSeq ++ runtimeLib ∧
    exitSeq = [.li .a7 93, .li .a0 0, .ecall] ∧
    (emit s).data =
      (emitCtx s).slots.map (fun q => DataEntry.slotE q.1 q.2)
        ++ [DataEntry.newlineE, DataEntry.bufferE]
        ++ (emitCtx s).pool.enum.map (fun q => DataEntry.strE q.1 q.2) :=
  ⟨rfl, rfl, rfl⟩

/-- C8: intern always appends a new pool entry and returns the pool
running count as the fresh label index, so a second intern call — in
particular of the same byte value — returns a different label (no
deduplication by value), and the rendered pool labels string_N are
numbered consecutively in allocation order. -/
theorem intern_append_fresh :
    (∀ (bs : List Nat) (c : Ctx),
      (intern bs c).1 = c.pool.length ∧ (intern bs c).2.pool = c.pool ++ [bs]) ∧
    (∀ (bs bs2 : List Nat) (c : Ctx), (intern bs2 (intern bs c).2).1 ≠ (intern bs c).1) ∧
    (∀ s : Stmt, (emit s).data.filterMap strIdx = List.range (emitCtx s).pool.length) := by
  refine ⟨fun bs c => ⟨rfl, rfl⟩, fun bs bs2 c => by simp [intern], fun s => ?_⟩
  simp only [emit, List.filterMap_append]
  have h1 : ∀ (L : List (String × Nat)),
      (L.map (fun q => DataEntry.slotE q.1 q.2)).filterMap strIdx = [] := by
    intro L
    rw [List.filterMap_eq_nil_iff]
    intro a ha
    obtain ⟨q, _, hq⟩ := List.mem_map.mp ha
    rw [← hq]
    rfl
  have h2 : List.filterMap strIdx [DataEntry.newlineE, DataEntry.bufferE] = [] := rfl
  have h3 : ∀ (P : List (List Nat)),
      (P.enum.map (fun q => DataEntry.strE q.1 q.2)).filterMap strIdx = P.enum.map Prod.fst := by
    intro P
    rw [List.filterMap_map]
    have : strIdx ∘ (fun q : Nat × List Nat => DataEntry.strE q.1 q.2)
        = fun q : Nat × List Nat => some q.1 := rfl
    rw [this, show (fun q : Nat × List Nat => some q.1) = some ∘ Prod.fst from rfl,
      List.filterMap_eq_map]
  rw [h1, h2, h3, List.enum_map_fst]
  rfl

/-- C9: for every program, the string pool starts with "false" at index 0
and "true" at index 1 (interned before any program literal, so program
literals receive indices from 2 up), the data section renders these as
string_0 (length 5) and string_1 (length 4), and the print_boolean
routine of my_program.s hard-codes exactly the labels string_1 (two
instructions after its entry) and string_0 (right after print_false) as
the addresses it prints. -/
theorem pool_bootstrap_false_true (s : Stmt) :
    (emitCtx s).pool.take 2 = [falseBytes, trueBytes] ∧
    DataEntry.strE 0 falseBytes ∈ (emit s).data ∧
    DataEntry.strE 1 trueBytes ∈ (emit s).data ∧
    falseBytes.length = 5 ∧ trueBytes.length = 4 ∧
    fetchInstr runtimeLib (resolve runtimeLib .print_boolean + 2)
      = some (.la .a0 (.string 1)) ∧
    fetchInstr runtimeLib (resolve runtimeLib .print_false + 1)
      = some (.la .a0 (.string 0)) := by
  obtain ⟨L, hL⟩ := genStmt_pool_ext s initCtx
  have hpool : (emitCtx s).pool = falseBytes :: trueBytes :: L := by
    rw [emitCtx, hL]
    rfl
  have he : (falseBytes :: trueBytes :: L).enum
      = (0, falseBytes) :: (1, trueBytes) :: L.enumFrom 2 := rfl
  refine ⟨by rw [hpool]; rfl, ?_, ?_, rfl, rfl, rfl, rfl⟩
  · simp only [emit, List.mem_append]
    right
    rw [show (genStmt s initCtx).2.pool = (emitCtx s).pool from rfl, hpool, he]
    simp
  · simp only [emit, List.mem_append]
    right
    rw [show (genStmt s initCtx).2.pool = (emitCtx s).pool from rfl, hpool, he]
    simp

end NexusGen








